import Mathlib

/-!
Shallow embedding of the HTTP/WebSocket server layer of this repository
(`src/infra/http/utils/http-server/http-server.ts` and
`src/infra/http/utils/websocket-server/websocket-server.ts`).

Side effects of the JavaScript code (binding a port, mounting an express
router, binding a socket listener, logging) are modelled as an explicit
trace of `Action`s; thrown JavaScript errors are modelled as an
`Option JsError` component of the result.
-/

namespace Srv

/-! ## JSON-like values crossing the HTTP boundary -/

/-- A JSON-like JavaScript value: the shape of request/response bodies,
params and query objects. -/
inductive JsValue where
  | str (s : String)
  | num (n : Int)
  | bool (b : Bool)
  | null
  | obj (fields : List (String × JsValue))
  | arr (elems : List JsValue)

/-! ## Case conversion (`@/util`)

The functions `convertSnakeCaseKeysToCamelCase` and
`convertCamelCaseKeysToSnakeCase` are imported by `http-server.ts` from
`@/util`, whose source is not part of the repository slice. -/

/-- Splits a character list on `'_'`, keeping empty segments,
mirroring JavaScript `String.prototype.split('_')`. -/
def splitOnUnderscore (cs : List Char) : List (List Char) :=
  cs.foldr
    (fun c acc =>
      match acc with
      | [] => if c = '_' then [[], []] else [[c]]
      | g :: gs => if c = '_' then [] :: g :: gs else (c :: g) :: gs)
    [[]]

/-- Upper-cases the first character of a segment. -/
def capitalizeSegment : List Char → List Char
  | [] => []
  | c :: cs => c.toUpper :: cs

/-- Modelled from the spec: key conversion snake_case → camelCase used by
`convertSnakeCaseKeysToCamelCase` from `@/util` (not under src/): the first
underscore-separated segment is kept, every following segment is
capitalized and the underscores are dropped. -/
def snakeToCamelKey (s : String) : String :=
  match splitOnUnderscore s.data with
  | [] => s
  | g :: gs => ⟨g ++ (gs.map capitalizeSegment).flatten⟩

/-- Modelled from the spec: key conversion camelCase → snake_case used by
`convertCamelCaseKeysToSnakeCase` from `@/util` (not under src/): every
upper-case character becomes an underscore followed by its lower-case
form. -/
def camelToSnakeKey (s : String) : String :=
  ⟨(s.data.map (fun c => if c.isUpper then ['_', c.toLower] else [c])).flatten⟩

mutual

/-- Modelled from the spec: the converters of `@/util` (not under src/) are
"pure functions converting mapping keys between snake_case and camelCase
recursively over nested mappings/sequences"; `f` is the key conversion. -/
def convertKeys (f : String → String) : JsValue → JsValue
  | .obj fields => .obj (convertKeysFields f fields)
  | .arr elems => .arr (convertKeysElems f elems)
  | v => v

/-- Key conversion over the field list of a mapping. -/
def convertKeysFields (f : String → String) :
    List (String × JsValue) → List (String × JsValue)
  | [] => []
  | (k, v) :: rest => (f k, convertKeys f v) :: convertKeysFields f rest

/-- Key conversion over the elements of a sequence. -/
def convertKeysElems (f : String → String) : List JsValue → List JsValue
  | [] => []
  | v :: rest => convertKeys f v :: convertKeysElems f rest

end

/-- Function `convertSnakeCaseKeysToCamelCase` from `@/util` (modelled from the
spec: recursive key conversion snake_case → camelCase). -/
def convertSnakeCaseKeysToCamelCase : JsValue → JsValue :=
  convertKeys snakeToCamelKey

/-- Function `convertCamelCaseKeysToSnakeCase` from `@/util` (modelled from the
spec: recursive key conversion camelCase → snake_case). -/
def convertCamelCaseKeysToSnakeCase : JsValue → JsValue :=
  convertKeys camelToSnakeKey

/-! ## Directory discovery filter

`routesDirectory` (http-server.ts, lines 214-263) and `eventsDirectory`
(websocket-server.ts, lines 55-81) share the same file filter code. -/

/-- The `extensionsToSearch` constant of `routesDirectory`/`eventsDirectory`. -/
def extensionsToSearch : List String := [".TS", ".JS"]

/-- The `ignoreIfIncludes` constant of `routesDirectory`/`eventsDirectory`. -/
def ignoreIfIncludes : List String := [".MAP.", ".SPEC.", ".TEST."]

/-- JavaScript `fileName.toLocaleUpperCase()` (ASCII file names). -/
def jsToUpper (s : String) : String := ⟨s.data.map Char.toUpper⟩

/-- JavaScript `String.prototype.endsWith`. -/
def jsEndsWith (s t : String) : Bool := t.data.isSuffixOf s.data

/-- Whether `t` occurs as a contiguous sublist of `s`. -/
def listInfix (t : List Char) : List Char → Bool
  | [] => t.isEmpty
  | c :: rest => t.isPrefixOf (c :: rest) || listInfix t rest

/-- JavaScript `String.prototype.includes`. -/
def jsIncludes (s t : String) : Bool := listInfix t.data s.data

/-- JavaScript truthiness of an array value: in JavaScript every object —
an array included, whatever its contents — is truthy, so `if (someArray)`
always takes the then-branch. Both operands of the filter condition in
`routesDirectory`/`eventsDirectory` are arrays produced by `.map`. -/
def jsArrayTruthy (_ : List Bool) : Bool := true

/-- The file filter of `routesDirectory`/`eventsDirectory`: the loop body
computes `hasAValidExtension` and `haveAValidName` with `.map` (arrays of
booleans) and guards the import with
`if (haveAValidName && hasAValidExtension)`. -/
def fileAccepted (fileName : String) : Bool :=
  let fileNameToUpperCase := jsToUpper fileName
  let hasAValidExtension :=
    ignoreIfIncludes.map (fun text => jsIncludes fileNameToUpperCase text)
  let haveAValidName :=
    extensionsToSearch.map (fun ext => jsEndsWith fileNameToUpperCase ext)
  jsArrayTruthy haveAValidName && jsArrayTruthy hasAValidExtension

/-- A file of a scanned directory: its name and whether the default
export of its module is a function (the typeof check on `setup` is the only
other skip in the loop). -/
structure DirFile where
  name : String
  defaultIsFunction : Bool

/-- How many default exports `routesDirectory` (respectively
`eventsDirectory`) invokes for registration, given the directory
listing: a setup runs when the filter condition holds and the default
export is a function. -/
def invokedSetupCount (files : List DirFile) : Nat :=
  (files.filter (fun f => fileAccepted f.name && f.defaultIsFunction)).length

/-! ## Observable side effects -/

/-- One observable side effect of the server layer: a trace of these
models what the JavaScript code does to the outside world. -/
inductive Action where
  | serverListen (port : Nat) (callback : Nat)
  | serverClose
  | mountRouter (url : String) (routerId : Nat)
  | runStartupCallback (callback : Nat)
  | wsConnect
  | wsClose
  | bindListener (name : String)
  | logWarn (message : String)
  deriving DecidableEq

/-- A thrown JavaScript error. -/
inductive JsError where
  | typeError
  deriving DecidableEq

/-! ## WebSocketServer (`websocket-server.ts`) -/

/-- The `EventOptions` of a WebSocket event registration (first argument of
`register`); `payloadIsSome` records whether a default payload is set. -/
structure EventOptions where
  name : String
  enabled : Bool
  payloadIsSome : Bool
  deriving DecidableEq

/-- A stored event descriptor: `{ options, callbacks }` pushed by
`register`; callbacks are identified by opaque ids. -/
structure EventDescriptor where
  options : EventOptions
  callbacks : List Nat
  deriving DecidableEq

/-- The mutable state of a `WebSocketServer` instance: its `events`
descriptor list. -/
structure WSState where
  events : List EventDescriptor
  deriving DecidableEq

/-- A freshly constructed `WebSocketServer`: `events` starts empty. -/
def wsInit : WSState := ⟨[]⟩

/-- The methods the class `WebSocketServer` defines
(websocket-server.ts, lines 12-98); dynamic method dispatch on a
`WebSocketServer` value finds exactly these. -/
def wsHasMethod : String → Bool
  | "getInstance" => true
  | "loadEvents" => true
  | "loadEventsAsync" => true
  | "eventsDirectory" => true
  | "register" => true
  | "connect" => true
  | _ => false

/-- Method `WebSocketServer.register(options, ...callbacks)`: returns without
storing anything when `options.enabled` is falsy, else pushes the
descriptor. -/
def register (s : WSState) (options : EventOptions) (callbacks : List Nat) :
    WSState :=
  if !options.enabled then s
  else ⟨s.events ++ [⟨options, callbacks⟩]⟩

/-- Method `WebSocketServer.loadEvents()`: for each stored descriptor, binds one
listener on the socket server under the event name of the descriptor. -/
def loadEvents (s : WSState) : List Action :=
  s.events.map (fun e => .bindListener e.options.name)

/-! ## HttpServer (`http-server.ts`) -/

/-- One element of the private `routers` array of `HttpServer`; the express
`Router()` objects are identified by the order of their creation. -/
structure RouterEntry where
  path : Option String
  baseUrl : Option String
  router : Nat
  loaded : Bool
  hidden : Bool
  deriving DecidableEq

/-- The private `listenerOptions` field of `HttpServer`. -/
structure ListenerOptions where
  port : Nat
  callback : Nat
  deriving DecidableEq

/-- The mutable fields of the `HttpServer` singleton. Fields declared
with a definite-assignment assertion (`!`) in the TypeScript class are
`Option`s here, `none` standing for `undefined`. `nextRouterId` supplies
the identity of each fresh express `Router()`. -/
structure ServerState where
  isStarted : Bool
  routers : List RouterEntry
  listenerOptions : Option ListenerOptions
  addressInfo : Option Nat
  baseUrl : String
  startWebSocketServer : Bool
  websocketServer : Option WSState
  hasServer : Bool
  startupCallbacks : List Nat
  nextRouterId : Nat
  deriving DecidableEq

/-- The state `new HttpServer()` produces. -/
def initState : ServerState where
  isStarted := false
  routers := []
  listenerOptions := none
  addressInfo := none
  baseUrl := ""
  startWebSocketServer := false
  websocketServer := none
  hasServer := false
  startupCallbacks := []
  nextRouterId := 0

/-- Method `setWebSocketServerOptions(options)`: records the options and flips
`startWebSocketServer`. -/
def setWebSocketServerOptions (s : ServerState) : ServerState :=
  { s with startWebSocketServer := true }

/-- Method `onStart(...)`: replaces the startup callback list. -/
def onStart (s : ServerState) (callbacks : List Nat) : ServerState :=
  { s with startupCallbacks := callbacks }

/-- Method `setBaseUrl(url)` (http-server.ts, lines 187-197): when the server is
already started it only logs a warning and returns; otherwise it stores
the url. -/
def setBaseUrl (s : ServerState) (url : String) : ServerState × List Action :=
  if s.isStarted then
    (s, [.logWarn "Only set the default base url if the server is not started"])
  else
    ({ s with baseUrl := url }, [])

/-- JavaScript `replaceAll` of the two-or-more-slashes pattern by a single
slash: collapses every run of two or more
slashes into a single slash. -/
def collapseSlashes : List Char → List Char
  | [] => []
  | [c] => [c]
  | c₁ :: c₂ :: rest =>
    if c₁ = '/' ∧ c₂ = '/' then collapseSlashes (c₂ :: rest)
    else c₁ :: collapseSlashes (c₂ :: rest)

/-- The mount url `loadRoutes` computes for a router entry:
the base url of the entry (default: the server base url), a slash, and the
path of the entry (default: empty), with duplicate slashes collapsed. -/
def mountUrl (defaultBaseUrl : String) (e : RouterEntry) : String :=
  ⟨collapseSlashes ((e.baseUrl.getD defaultBaseUrl) ++ "/" ++
      (e.path.getD "")).data⟩

/-- Method `loadRoutes()` (http-server.ts, lines 317-327): mounts every
not-yet-loaded router entry into the express app and flips its `loaded`
flag; already-loaded entries are untouched and no entry is removed. -/
def loadRoutes (s : ServerState) : ServerState × List Action :=
  ({ s with routers := s.routers.map (fun e => { e with loaded := true }) },
    (s.routers.filter (fun e => !e.loaded)).map
      (fun e => .mountRouter (mountUrl s.baseUrl e) e.router))

/-- Method `createRoute(options)` (http-server.ts, lines 287-304): creates a
fresh express `Router()`, appends a new not-loaded entry, and returns a
`Route` backed by the fresh router. -/
def createRoute (s : ServerState) (path baseUrl : Option String)
    (hidden : Bool) : ServerState × Nat :=
  let router := s.nextRouterId
  ({ s with
      routers := s.routers ++ [⟨path, baseUrl, router, false, hidden⟩],
      nextRouterId := router + 1 },
    router)

/-- The predicate of the `find` call inside `getRoute`:
`route.path === path && route.baseUrl === baseUrl && !route.hidden`. -/
def routeMatches (path baseUrl : Option String) (e : RouterEntry) : Bool :=
  e.path == path && e.baseUrl == baseUrl && !e.hidden

/-- The router entry `getRoute(path, baseUrl)` (http-server.ts, lines
306-315) finds: the first non-hidden entry with the given path and base
url. -/
def getRouteEntry (s : ServerState) (path baseUrl : Option String) :
    Option RouterEntry :=
  s.routers.find? (routeMatches path baseUrl)

/-- The underlying router of the `Route` that `getRoute(path, baseUrl)`
returns, when an entry is found. -/
def getRoute (s : ServerState) (path baseUrl : Option String) : Option Nat :=
  (getRouteEntry s path baseUrl).map (fun e => e.router)

/-- Method `route(path, baseUrl)` (http-server.ts, lines 265-279): returns the
existing matching route when `getRoute` finds one, else creates a fresh
non-hidden one; the `Nat` is the underlying router backing the returned
`Route`. -/
def route (s : ServerState) (path baseUrl : Option String) :
    ServerState × Nat :=
  match getRoute s path baseUrl with
  | some router => (s, router)
  | none => createRoute s path baseUrl false

/-- Method `listen(port, callback)` (http-server.ts, lines 83-95): returns at
once when already started; otherwise marks the server started, loads
routes, stores the listener options, builds the node server via
`getServer()` (which runs `loadRoutes` again), binds the port and stores
the address info. -/
def listen (s : ServerState) (port callback : Nat) :
    ServerState × List Action :=
  if s.isStarted then (s, [])
  else
    let s₁ := { s with isStarted := true }
    let (s₂, mounts₁) := loadRoutes s₁
    let s₃ := { s₂ with listenerOptions := some ⟨port, callback⟩ }
    let (s₄, mounts₂) := loadRoutes s₃
    let s₅ := { s₄ with hasServer := true, addressInfo := some port }
    (s₅, mounts₁ ++ mounts₂ ++ [.serverListen port callback])

/-- Method `listenAsync(port, callback)` (http-server.ts, lines 106-133):
returns at once when already started; otherwise marks the server started,
runs the startup callbacks, loads routes, stores the listener options,
creates the node server, runs `initializeWebSocketServer()` (which
returns early when no WebSocket server was configured, else builds the
instance from the events directory scan `wsFromDir`), and then calls
`this.websocketServer.connect()` — a `TypeError` when that field is still
`undefined` — before binding the port. -/
def listenAsync (s : ServerState) (port callback : Nat)
    (wsFromDir : WSState) : ServerState × List Action × Option JsError :=
  if s.isStarted then (s, [], none)
  else
    let s₁ := { s with isStarted := true }
    let startupActs := s₁.startupCallbacks.map Action.runStartupCallback
    let (s₂, mounts) := loadRoutes s₁
    let s₃ := { s₂ with
      listenerOptions := some ⟨port, callback⟩, hasServer := true }
    let s₄ :=
      if s₃.startWebSocketServer then
        { s₃ with websocketServer := some wsFromDir }
      else s₃
    match s₄.websocketServer with
    | none => (s₄, startupActs ++ mounts, some .typeError)
    | some _ =>
      ({ s₄ with addressInfo := some port },
        startupActs ++ mounts ++ [.wsConnect, .serverListen port callback],
        none)

/-- Method `refresh()` (http-server.ts, lines 149-156): returns at once when
never started; otherwise closes the node server and calls
`this.listen(this.listenerOptions.port, this.listenerOptions.callback)`. -/
def refresh (s : ServerState) : ServerState × List Action × Option JsError :=
  if !s.isStarted then (s, [], none)
  else
    match s.listenerOptions with
    | none => (s, [], some .typeError)
    | some lo =>
      let (s', acts) := listen s lo.port lo.callback
      (s', .serverClose :: acts, none)

/-- Method `close()` (http-server.ts, lines 158-165): returns at once when never
started; otherwise closes the node server, and when a WebSocket server
was configured calls `this.websocketServer.close()` — a `TypeError`
both when the field is still `undefined` and when it holds a
`WebSocketServer`, because the class defines no `close` method. -/
def close (s : ServerState) : ServerState × List Action × Option JsError :=
  if !s.isStarted then (s, [], none)
  else if !s.startWebSocketServer then (s, [.serverClose], none)
  else
    match s.websocketServer with
    | none => (s, [.serverClose], some .typeError)
    | some _ =>
      if wsHasMethod "close" then (s, [.serverClose, .wsClose], none)
      else (s, [.serverClose], some .typeError)

/-! ## The middleware adapter (`http-server.ts`, lines 371-391) -/

/-- The mutable request fields the adapter rewrites. -/
structure HttpRequest where
  body : JsValue
  params : JsValue
  query : JsValue

/-- The `{ statusCode, body?, headers? }` value a controller or
middleware method `handle` returns (`none` models a falsy result). -/
structure HandleResult where
  statusCode : Nat
  body : JsValue
  headers : Option (List (String × String))

/-- What the adapter sends through the express `response`: the headers it
set, the status, and the JSON body. -/
structure SentResponse where
  headers : Option (List (String × String))
  statusCode : Nat
  body : JsValue

/-- The request mutation at the top of the function `middlewareAdapter`
returns: body, params and query are converted snake_case → camelCase in
place. -/
def adaptRequest (req : HttpRequest) : HttpRequest where
  body := convertSnakeCaseKeysToCamelCase req.body
  params := convertSnakeCaseKeysToCamelCase req.params
  query := convertSnakeCaseKeysToCamelCase req.query

/-- The request handler returned by `middlewareAdapter(middleware)`: rewrites
the request, invokes `middleware.handle` on it, returns without
responding when the result is falsy, else applies the headers of the result
(if any) and sends its status together with the body converted
camelCase → snake_case. The first component is the request object as the
handler leaves it (the object `handle` received). -/
def middlewareAdapter (handle : HttpRequest → Option HandleResult)
    (req : HttpRequest) : HttpRequest × Option SentResponse :=
  let req' := adaptRequest req
  match handle req' with
  | none => (req', none)
  | some r =>
    (req', some ⟨r.headers, r.statusCode, convertCamelCaseKeysToSnakeCase r.body⟩)

/-! ## Derived notions used by the statements -/

/-- The identities of the express routers the server holds. -/
def routerIds (s : ServerState) : List Nat :=
  s.routers.map (fun e => e.router)

/-- Well-formedness of the router registry, established by construction:
every router id was handed out by `nextRouterId` (so is below it) and no
two entries share a router. Every state the class can reach satisfies
it. -/
def RouterInv (s : ServerState) : Prop :=
  (∀ e ∈ s.routers, e.router < s.nextRouterId) ∧ (routerIds s).Nodup

/-- Runs `loadRoutes` `n` times in a row (as `listen`, `getServer` and
`routesDirectory` trigger them), with the concatenated mount trace. -/
def iterLoadRoutes : Nat → ServerState → ServerState × List Action
  | 0, s => (s, [])
  | n + 1, s =>
    let p₁ := loadRoutes s
    let p₂ := iterLoadRoutes n p₁.1
    (p₂.1, p₁.2 ++ p₂.2)

/-- How many times a trace mounts the router `routerId` into the express
app. -/
def mountCount (acts : List Action) (routerId : Nat) : Nat :=
  (acts.filter (fun a =>
    match a with
    | .mountRouter _ r => r == routerId
    | _ => false)).length

/-- Whether a trace binds a port. -/
def bindsPort (acts : List Action) : Bool :=
  acts.any (fun a =>
    match a with
    | .serverListen _ _ => true
    | _ => false)

/-! ## Theorems -/

/-- C1: the claim states that a file whose upper-cased name contains an
excluded marker, or does not end in an accepted extension, is skipped, so
that a directory with one valid handler file and one excluded-pattern
file yields exactly one registration. The code refutes this: the filter
condition conjoins two arrays produced by `.map`, and an array is always
truthy, so no file is ever skipped — a directory listing with a valid
handler and a `.spec.ts` file (both default-exporting a function) invokes
two setups, and even a `.md` file passes the filter. -/
theorem claim_C1 :
    invokedSetupCount
      [⟨"health-route.ts", true⟩, ⟨"health-route.spec.ts", true⟩] = 2 ∧
    fileAccepted "health-route.spec.ts" = true ∧
    fileAccepted "health-route.md" = true := by
  refine ⟨?_, ?_, ?_⟩ <;> decide

/-- C2: the claim states that `refresh()` on a started server closes the
listener and then listens again on the last-used port with the last-used
callback, and is a no-op on a never-started server. The code refutes the
first half: `refresh` never resets `isStarted`, so the `listen` call
inside it returns immediately and the trace of a refresh on a started
server is exactly one close — no new `serverListen` ever happens. The
no-op half holds. -/
theorem claim_C2 :
    refresh (listen initState 3000 7).1
      = ((listen initState 3000 7).1, [Action.serverClose], none) ∧
    refresh initState = (initState, [], none) :=
  ⟨rfl, rfl⟩

/-- C3: the claim states that `close()` on a started server closes the
HTTP listener and, when a WebSocket server was configured, closes the
WebSocket server too. The code refutes the WebSocket half: the class
`WebSocketServer` defines no `close` method, so
`this.websocketServer.close()` throws a `TypeError` and no WebSocket
close happens. Closing the HTTP listener and the never-started no-op
hold. -/
theorem claim_C3 :
    close (listenAsync (setWebSocketServerOptions initState) 3000 7 wsInit).1
      = ((listenAsync (setWebSocketServerOptions initState) 3000 7 wsInit).1,
        [Action.serverClose], some JsError.typeError) ∧
    wsHasMethod "close" = false ∧
    close (listen initState 3000 7).1
      = ((listen initState 3000 7).1, [Action.serverClose], none) ∧
    close initState = (initState, [], none) :=
  ⟨rfl, rfl, rfl, rfl⟩

/-- C4: for every request handled through the middleware adapter, the
incoming body, params and query are converted from snake_case keys to
camelCase keys before `handle` is invoked (the request object handed to
`handle` is exactly `adaptRequest req`), and the body of the response the
controller returns is converted from camelCase keys back to snake_case
keys before being sent; a falsy result sends nothing. -/
theorem claim_C4 (handle : HttpRequest → Option HandleResult)
    (req : HttpRequest) :
    (middlewareAdapter handle req).1 = adaptRequest req ∧
    (adaptRequest req).body = convertSnakeCaseKeysToCamelCase req.body ∧
    (adaptRequest req).params = convertSnakeCaseKeysToCamelCase req.params ∧
    (adaptRequest req).query = convertSnakeCaseKeysToCamelCase req.query ∧
    (handle (adaptRequest req) = none →
      (middlewareAdapter handle req).2 = none) ∧
    (∀ r, handle (adaptRequest req) = some r →
      (middlewareAdapter handle req).2
        = some ⟨r.headers, r.statusCode,
            convertCamelCaseKeysToSnakeCase r.body⟩) := by
  refine ⟨?_, rfl, rfl, rfl,
    fun h => by simp [middlewareAdapter, h],
    fun r h => by simp [middlewareAdapter, h]⟩
  cases h : handle (adaptRequest req) <;> simp [middlewareAdapter, h]

/-- Witness for C4, the end-to-end shape of the spec: a POST body with
key `user_name` reaches the controller with key `userName`, and a
controller answering `{statusCode: 200, body: {userName: "a"}}` sends
status 200 with body key `user_name`. -/
theorem claim_C4_witness :
    (middlewareAdapter
        (fun _ => some ⟨200, .obj [("userName", .str "a")], none⟩)
        ⟨.obj [("user_name", .str "a")], .obj [], .obj []⟩).1.body
      = JsValue.obj [("userName", JsValue.str "a")] ∧
    (middlewareAdapter
        (fun _ => some ⟨200, .obj [("userName", .str "a")], none⟩)
        ⟨.obj [("user_name", .str "a")], .obj [], .obj []⟩).2
      = some ⟨none, 200, JsValue.obj [("user_name", JsValue.str "a")]⟩ := by
  have h := claim_C4
    (fun _ => some ⟨200, .obj [("userName", .str "a")], none⟩)
    ⟨.obj [("user_name", .str "a")], .obj [], .obj []⟩
  refine ⟨?_, ?_⟩
  · rw [h.1]
    rfl
  · rw [h.2.2.2.2.2 ⟨200, .obj [("userName", .str "a")], none⟩ rfl]
    rfl

/-- C7: `register(options, ...callbacks)` with a disabled `options`
stores no event descriptor — on a fresh server `loadEvents()` then binds
zero listeners — while an enabled `options` stores exactly one descriptor
more, and `loadEvents` binds one listener per stored descriptor, under
the name of the descriptor. -/
theorem claim_C7 (ws : WSState) (opts : EventOptions) (cbs : List Nat) :
    (opts.enabled = false →
      register ws opts cbs = ws ∧
      loadEvents (register wsInit opts cbs) = []) ∧
    (opts.enabled = true →
      (register ws opts cbs).events = ws.events ++ [⟨opts, cbs⟩] ∧
      (loadEvents (register ws opts cbs)).length = ws.events.length + 1) ∧
    loadEvents ws = ws.events.map (fun e => .bindListener e.options.name) := by
  refine ⟨fun h => ?_, fun h => ?_, rfl⟩ <;>
    simp [register, loadEvents, wsInit, h]

/-- Witness for C7: a disabled registration leaves a fresh server with
zero bound listeners; an enabled one stores one descriptor and binds one
listener. -/
theorem claim_C7_witness :
    register wsInit ⟨"message", false, false⟩ [0] = wsInit ∧
    loadEvents (register wsInit ⟨"message", false, false⟩ [0]) = [] ∧
    (register wsInit ⟨"message", true, false⟩ [0]).events
      = [⟨⟨"message", true, false⟩, [0]⟩] ∧
    (loadEvents (register wsInit ⟨"message", true, false⟩ [0])).length = 1 := by
  have h₀ := (claim_C7 wsInit ⟨"message", false, false⟩ [0]).1 rfl
  have h₁ := (claim_C7 wsInit ⟨"message", true, false⟩ [0]).2.1 rfl
  exact ⟨h₀.1, h₀.2, by simpa [wsInit] using h₁.1, by simpa [wsInit] using h₁.2⟩

/-- C8: `setBaseUrl(url)` called after the server has started leaves the
stored base url unchanged and only logs a warning (no error is thrown:
the trace is a single `logWarn`); called before start it sets the base
url to the given value. -/
theorem claim_C8 (s : ServerState) (url : String) :
    (s.isStarted = true →
      setBaseUrl s url
        = (s, [.logWarn
            "Only set the default base url if the server is not started"])) ∧
    (s.isStarted = false →
      setBaseUrl s url = ({ s with baseUrl := url }, [])) := by
  constructor <;> intro h <;> simp [setBaseUrl, h]

/-- Witness for C8: on a server started at port 3000 the base url stays
untouched with a warning; on a fresh server it is set. -/
theorem claim_C8_witness :
    setBaseUrl (listen initState 3000 7).1 "/api/v1"
      = ((listen initState 3000 7).1,
        [Action.logWarn
          "Only set the default base url if the server is not started"]) ∧
    setBaseUrl initState "/api/v1"
      = ({ initState with baseUrl := "/api/v1" }, []) :=
  ⟨(claim_C8 (listen initState 3000 7).1 "/api/v1").1 rfl,
    (claim_C8 initState "/api/v1").2 rfl⟩

/-- After any `listen` the server is marked started. -/
theorem listen_isStarted (s : ServerState) (port callback : Nat) :
    (listen s port callback).1.isStarted = true := by
  by_cases h : s.isStarted = true <;> simp [listen, loadRoutes, h]

/-- After any `listenAsync` the server is marked started — even when the
call threw. -/
theorem listenAsync_isStarted (s : ServerState) (port callback : Nat)
    (w : WSState) : (listenAsync s port callback w).1.isStarted = true := by
  by_cases h : s.isStarted = true
  · simp [listenAsync, h]
  · simp only [listenAsync, h, Bool.false_eq_true, if_false, if_neg]
    split <;> split <;> simp [loadRoutes]

/-- On a started server `listen` is a no-op. -/
theorem listen_of_started {s : ServerState} (h : s.isStarted = true)
    (port callback : Nat) : listen s port callback = (s, []) := by
  simp [listen, h]

/-- On a started server `listenAsync` is a no-op. -/
theorem listenAsync_of_started {s : ServerState} (h : s.isStarted = true)
    (port callback : Nat) (w : WSState) :
    listenAsync s port callback w = (s, [], none) := by
  simp [listenAsync, h]

/-- C5: `listen` (and `listenAsync`) is idempotent — after a first call
(for `listenAsync`, a first successful call), a second call on the same
server returns at once: it binds nothing, runs no startup callback (the
trace is empty) and leaves the whole server state — routers,
listenerOptions, addressInfo included — unchanged. -/
theorem claim_C5 (s : ServerState) (p c p' c' : Nat) (w w' : WSState) :
    listen (listen s p c).1 p' c' = ((listen s p c).1, []) ∧
    ((listenAsync s p c w).2.2 = none →
      listenAsync (listenAsync s p c w).1 p' c' w'
        = ((listenAsync s p c w).1, [], none)) :=
  ⟨listen_of_started (listen_isStarted s p c) p' c',
    fun _ => listenAsync_of_started (listenAsync_isStarted s p c w) p' c' w'⟩

/-- Witness for C5: a second `listen` after `listen(3000)` and a second
`listenAsync` after a successful `listenAsync(3000)` (WebSocket
configured) both change nothing and emit no action. -/
theorem claim_C5_witness :
    listen (listen initState 3000 7).1 4000 8 = ((listen initState 3000 7).1, []) ∧
    listenAsync
        (listenAsync (setWebSocketServerOptions initState) 3000 7 wsInit).1
        4000 8 wsInit
      = ((listenAsync (setWebSocketServerOptions initState) 3000 7 wsInit).1,
        [], none) :=
  ⟨(claim_C5 initState 3000 7 4000 8 wsInit wsInit).1,
    (claim_C5 (setWebSocketServerOptions initState) 3000 7 4000 8 wsInit
      wsInit).2 rfl⟩

/-- C10: when `setWebSocketServerOptions` was never called, `listenAsync`
dereferences the still-undefined `websocketServer` field at the
`connect()` call and throws a `TypeError` before binding the port: the
error is set and the emitted trace contains no `serverListen`. -/
theorem claim_C10 (s : ServerState) (port callback : Nat) (w : WSState)
    (h₁ : s.isStarted = false) (h₂ : s.startWebSocketServer = false)
    (h₃ : s.websocketServer = none) :
    (listenAsync s port callback w).2.2 = some JsError.typeError ∧
    bindsPort (listenAsync s port callback w).2.1 = false := by
  have hform :
      (listenAsync s port callback w).2.1
        = s.startupCallbacks.map Action.runStartupCallback ++
          (s.routers.filter (fun e => !e.loaded)).map
            (fun e => Action.mountRouter (mountUrl s.baseUrl e) e.router) ∧
      (listenAsync s port callback w).2.2 = some JsError.typeError := by
    simp [listenAsync, h₁, h₂, h₃, loadRoutes]
  refine ⟨hform.2, ?_⟩
  rw [hform.1]
  unfold bindsPort
  rw [List.any_append, Bool.or_eq_false_iff]
  constructor <;>
    · rw [List.any_eq_false]
      intro x hx
      obtain ⟨y, -, rfl⟩ := List.mem_map.1 hx
      simp

/-- Witness for C10: `listenAsync` on a fresh server with no WebSocket
configuration throws and never binds port 3000. -/
theorem claim_C10_witness :
    (listenAsync initState 3000 7 wsInit).2.2 = some JsError.typeError ∧
    bindsPort (listenAsync initState 3000 7 wsInit).2.1 = false :=
  claim_C10 initState 3000 7 wsInit rfl rfl rfl

/-- The lookup predicate holds exactly on non-hidden entries carrying the
given path and base url. -/
theorem routeMatches_iff (p b : Option String) (e : RouterEntry) :
    routeMatches p b e = true ↔
      e.path = p ∧ e.baseUrl = b ∧ e.hidden = false := by
  simp [routeMatches, Bool.and_assoc]

/-- A found entry belongs to the registry. -/
theorem getRouteEntry_mem {s : ServerState} {p b : Option String}
    {e : RouterEntry} (h : getRouteEntry s p b = some e) : e ∈ s.routers :=
  List.mem_of_find?_eq_some h

/-- A found entry carries the looked-up path and base url and is not
hidden. -/
theorem getRouteEntry_matches {s : ServerState} {p b : Option String}
    {e : RouterEntry} (h : getRouteEntry s p b = some e) :
    e.path = p ∧ e.baseUrl = b ∧ e.hidden = false :=
  (routeMatches_iff p b e).1 (List.find?_some h)

/-- When the lookup fails, no entry of the registry matches. -/
theorem getRouteEntry_none {s : ServerState} {p b : Option String}
    (h : getRouteEntry s p b = none) :
    ∀ e ∈ s.routers, routeMatches p b e = false := by
  intro e he
  have := List.find?_eq_none.1 h e he
  simpa using this

/-- Shape of `route` when the lookup succeeds. -/
theorem route_of_entry {s : ServerState} {p b : Option String}
    {e : RouterEntry} (h : getRouteEntry s p b = some e) :
    route s p b = (s, e.router) := by
  simp [route, getRoute, h]

/-- Shape of `route` when the lookup fails. -/
theorem route_of_none {s : ServerState} {p b : Option String}
    (h : getRouteEntry s p b = none) :
    route s p b = createRoute s p b false := by
  simp [route, getRoute, h]

/-- After `createRoute` for (p, b), the lookup for (p, b) that previously
failed finds the fresh entry. -/
theorem getRouteEntry_createRoute_self {s : ServerState}
    {p b : Option String} (h : getRouteEntry s p b = none) :
    getRouteEntry (createRoute s p b false).1 p b
      = some ⟨p, b, s.nextRouterId, false, false⟩ := by
  unfold getRouteEntry createRoute at *
  rw [List.find?_append, h]
  simp [routeMatches]

/-- The lookup over the extended registry, general form. -/
theorem getRouteEntry_createRoute (s : ServerState)
    (p b p' b' : Option String) (hidden : Bool) :
    getRouteEntry (createRoute s p b hidden).1 p' b'
      = (getRouteEntry s p' b').or
          (List.find? (routeMatches p' b') [⟨p, b, s.nextRouterId, false, hidden⟩]) := by
  unfold getRouteEntry createRoute
  rw [List.find?_append]

/-- C6, part 1: `route` twice with the same (path, baseUrl) pair hands
out the same underlying router. -/
theorem route_route_same (s : ServerState) (p b : Option String) :
    (route (route s p b).1 p b).2 = (route s p b).2 := by
  cases h : getRouteEntry s p b with
  | some e =>
    rw [route_of_entry h, route_of_entry h]
  | none =>
    rw [route_of_none h]
    have hfound := getRouteEntry_createRoute_self h
    rw [route_of_entry hfound]
    simp [createRoute]

/-- C6, part 2: with a well-formed registry, `route` for two different
(path, baseUrl) pairs hands out two different underlying routers. -/
theorem route_route_ne (s : ServerState) (hInv : RouterInv s)
    (p b p' b' : Option String) (hne : ¬(p = p' ∧ b = b')) :
    (route (route s p b).1 p' b').2 ≠ (route s p b).2 := by
  obtain ⟨hbound, hnodup⟩ := hInv
  cases h₁ : getRouteEntry s p b with
  | some e₁ =>
    rw [route_of_entry h₁]
    obtain ⟨he₁p, he₁b, -⟩ := getRouteEntry_matches h₁
    cases h₂ : getRouteEntry s p' b' with
    | some e₂ =>
      rw [route_of_entry h₂]
      obtain ⟨he₂p, he₂b, -⟩ := getRouteEntry_matches h₂
      intro hr
      have : e₂ = e₁ :=
        List.inj_on_of_nodup_map hnodup (getRouteEntry_mem h₂)
          (getRouteEntry_mem h₁) hr
      exact hne ⟨he₁p ▸ this ▸ he₂p, he₁b ▸ this ▸ he₂b⟩
    | none =>
      rw [route_of_none h₂]
      have := hbound e₁ (getRouteEntry_mem h₁)
      simp only [createRoute]
      omega
  | none =>
    rw [route_of_none h₁]
    have hr₁ : (createRoute s p b false).2 = s.nextRouterId := rfl
    cases h₂ : getRouteEntry (createRoute s p b false).1 p' b' with
    | some e₂ =>
      rw [route_of_entry h₂]
      obtain ⟨he₂p, he₂b, -⟩ := getRouteEntry_matches h₂
      rw [hr₁]
      have hmem := getRouteEntry_mem h₂
      simp only [createRoute, List.mem_append, List.mem_singleton] at hmem
      cases hmem with
      | inl hold =>
        have := hbound e₂ hold
        omega
      | inr hnew =>
        subst hnew
        exact absurd ⟨he₂p, he₂b⟩ hne
    | none =>
      rw [route_of_none h₂, hr₁]
      simp [createRoute]

/-- `createRoute` keeps the registry well formed. -/
theorem routerInv_createRoute {s : ServerState} (hInv : RouterInv s)
    (p b : Option String) (hidden : Bool) :
    RouterInv (createRoute s p b hidden).1 := by
  obtain ⟨hbound, hnodup⟩ := hInv
  constructor
  · intro e he
    simp only [createRoute, List.mem_append, List.mem_singleton] at he
    cases he with
    | inl h => exact Nat.lt_succ_of_lt (hbound e h)
    | inr h => simp [h, createRoute]
  · unfold routerIds createRoute
    simp only [List.map_append, List.map_cons, List.map_nil]
    rw [List.nodup_append]
    refine ⟨hnodup, List.nodup_singleton _, ?_⟩
    intro r hr hr'
    simp only [List.mem_singleton] at hr'
    obtain ⟨e, hemem, rfl⟩ := List.mem_map.1 hr
    have := hbound e hemem
    omega

/-- C6: on a well-formed registry, `route(path, baseUrl)` called twice
with the same pair returns handles backed by the same underlying router;
calls with different pairs return handles backed by distinct routers; and
the lookup never returns a hidden entry. -/
theorem claim_C6 (s : ServerState) (hInv : RouterInv s)
    (p b p' b' : Option String) (hne : ¬(p = p' ∧ b = b')) :
    (route (route s p b).1 p b).2 = (route s p b).2 ∧
    (route (route s p b).1 p' b').2 ≠ (route s p b).2 ∧
    (∀ e, getRouteEntry s p b = some e → e.hidden = false) :=
  ⟨route_route_same s p b, route_route_ne s hInv p b p' b' hne,
    fun _ h => (getRouteEntry_matches h).2.2⟩

/-- Witness for C6: on a fresh server, asking twice for path `a` yields
the same router, while asking for path `a` and then path `b` yields
different routers. -/
theorem claim_C6_witness :
    (route (route initState (some "a") none).1 (some "a") none).2
      = (route initState (some "a") none).2 ∧
    (route (route initState (some "a") none).1 (some "b") none).2
      ≠ (route initState (some "a") none).2 := by
  have h := claim_C6 initState
    ⟨by simp [initState], by simp [routerIds, initState]⟩
    (some "a") none (some "b") none (by simp)
  exact ⟨h.1, h.2.1⟩

/-- Setting an already-true `loaded` flag changes nothing. -/
theorem loaded_update_self {e : RouterEntry} (h : e.loaded = true) :
    { e with loaded := true } = e := by
  cases e
  simp_all

/-- On a registry whose entries are all loaded, `loadRoutes` changes
nothing and mounts nothing. -/
theorem loadRoutes_all_loaded {s : ServerState}
    (h : ∀ e ∈ s.routers, e.loaded = true) : loadRoutes s = (s, []) := by
  unfold loadRoutes
  have h₁ : s.routers.map (fun e => { e with loaded := true }) = s.routers := by
    rw [List.map_congr_left (fun e he => loaded_update_self (h e he))]
    simp
  have h₂ : s.routers.filter (fun e => !e.loaded) = [] := by
    rw [List.filter_eq_nil_iff]
    intro e he
    simp [h e he]
  rw [h₁, h₂]
  rfl

/-- After one `loadRoutes` every entry is loaded. -/
theorem loadRoutes_result_all_loaded (s : ServerState) :
    ∀ e ∈ (loadRoutes s).1.routers, e.loaded = true := by
  unfold loadRoutes
  simp

/-- Iterating `loadRoutes` over an all-loaded registry is the identity
with an empty trace. -/
theorem iterLoadRoutes_all_loaded {s : ServerState}
    (h : ∀ e ∈ s.routers, e.loaded = true) (n : Nat) :
    iterLoadRoutes n s = (s, []) := by
  induction n with
  | zero => rfl
  | succ m ih =>
    unfold iterLoadRoutes
    rw [loadRoutes_all_loaded h]
    simp [ih]

/-- Unfolding `mountCount` over a mount action. -/
theorem mountCount_cons_mount (url : String) (r : Nat) (acts : List Action)
    (rid : Nat) :
    mountCount (Action.mountRouter url r :: acts) rid
      = (if r = rid then 1 else 0) + mountCount acts rid := by
  unfold mountCount
  rw [List.filter_cons]
  by_cases h : r = rid <;> simp [h, Nat.add_comm]

/-- A mount trace built from entries whose router ids avoid `rid` never
mounts `rid`. -/
theorem mountCount_zero_of_not_mem (base : String) (t : List RouterEntry)
    (rid : Nat) (h : rid ∉ t.map (fun e => e.router)) :
    mountCount ((t.filter (fun e => !e.loaded)).map
      (fun e => Action.mountRouter (mountUrl base e) e.router)) rid = 0 := by
  unfold mountCount
  rw [List.length_eq_zero, List.filter_eq_nil_iff]
  intro a ha
  obtain ⟨e, hef, rfl⟩ := List.mem_map.1 ha
  have het : e ∈ t := List.mem_of_mem_filter hef
  have : e.router ≠ rid := fun hr => h (hr ▸ List.mem_map_of_mem _ het)
  simp [this]

/-- The mount trace of one `loadRoutes` pass over a duplicate-free
registry mounts each not-yet-loaded entry exactly once and each loaded
entry zero times. -/
theorem mountCount_pass (base : String) (l : List RouterEntry)
    (hnd : (l.map (fun e => e.router)).Nodup) {e₀ : RouterEntry}
    (he : e₀ ∈ l) :
    mountCount ((l.filter (fun e => !e.loaded)).map
      (fun e => Action.mountRouter (mountUrl base e) e.router)) e₀.router
      = if e₀.loaded then 0 else 1 := by
  induction l with
  | nil => cases he
  | cons a t ih =>
    rw [List.map_cons, List.nodup_cons] at hnd
    rcases List.mem_cons.1 he with rfl | he'
    · cases hl : e₀.loaded with
      | true =>
        rw [List.filter_cons_of_neg (by simp [hl])]
        rw [mountCount_zero_of_not_mem base t e₀.router hnd.1]
        simp
      | false =>
        rw [List.filter_cons_of_pos (by simp [hl]), List.map_cons,
          mountCount_cons_mount,
          mountCount_zero_of_not_mem base t e₀.router hnd.1]
        simp
    · have hne : a.router ≠ e₀.router :=
        fun hr => hnd.1 (hr ▸ List.mem_map_of_mem _ he')
      cases hl : a.loaded with
      | true =>
        rw [List.filter_cons_of_neg (by simp [hl])]
        exact ih hnd.2 he'
      | false =>
        rw [List.filter_cons_of_pos (by simp [hl]), List.map_cons,
          mountCount_cons_mount]
        rw [if_neg hne, Nat.zero_add]
        exact ih hnd.2 he'

/-- C9: every router entry only ever has its `loaded` flag flipped from
false to true and is never removed — after any positive number of
`loadRoutes` passes (as triggered by `listen`, `getServer` or repeated
`routesDirectory` calls) the registry holds exactly the original entries,
all marked loaded — and the accumulated trace mounts each entry that was
not yet loaded exactly once and each already-loaded entry zero times. -/
theorem claim_C9 (s : ServerState) (n : Nat) (hInv : RouterInv s)
    (hn : 1 ≤ n) :
    (iterLoadRoutes n s).1.routers
      = s.routers.map (fun e => { e with loaded := true }) ∧
    ∀ e ∈ s.routers,
      mountCount (iterLoadRoutes n s).2 e.router
        = if e.loaded then 0 else 1 := by
  obtain ⟨m, rfl⟩ : ∃ m, n = m + 1 := ⟨n - 1, by omega⟩
  have hiter :=
    iterLoadRoutes_all_loaded (loadRoutes_result_all_loaded s) m
  have hsplit : iterLoadRoutes (m + 1) s
      = ((loadRoutes s).1, (loadRoutes s).2) := by
    simp [iterLoadRoutes, hiter]
  rw [hsplit]
  constructor
  · rfl
  · intro e he
    exact mountCount_pass s.baseUrl s.routers hInv.2 he

/-- Witness for C9: a server with one registered route, after two
`loadRoutes` passes, still holds exactly that entry (now loaded) and the
trace mounted its router exactly once. -/
theorem claim_C9_witness :
    (iterLoadRoutes 2 (createRoute initState (some "health") none false).1).1.routers
      = [⟨some "health", none, 0, true, false⟩] ∧
    mountCount
      (iterLoadRoutes 2 (createRoute initState (some "health") none false).1).2
      0 = 1 := by
  have h := claim_C9 (createRoute initState (some "health") none false).1 2
    ⟨by decide, by decide⟩ (by omega)
  constructor
  · rw [h.1]
    rfl
  · have := h.2 ⟨some "health", none, 0, false, false⟩ (by decide)
    simpa using this

end Srv
